import Mathlib

/-!
Verification of the peer-to-peer chat node implemented in `peer.py`.

The node keeps a registry of live connections (`Peer.peers`, a dict from
socket to remote address guarded by `Peer.lock`), floods every received
message to all other connections (`Peer.broadcast`), runs one receive loop
per connection (`Peer.handle_client`), drains a local outbound queue
(`Peer.process_messages`), dials peers (`Peer.connect_to_peer`) and
coordinates termination (`Peer.shutdown`).

The embedding below models the node as a pure state-transition system.
Sockets are identified by numeric handles (Python object identity), byte
strings are modelled abstractly (UTF-8 encoding is injective, so a valid
byte string is determined by the string it encodes, and invalid byte
strings are tagged), and every console print, log-queue put, message-queue
put, socket send attempt and socket close is recorded in the state so that
the side effects of each operation can be stated exactly.
-/

namespace P2P

/-- A socket handle, identified by a numeric id (Python object identity:
`is` on socket objects). -/
abbrev Sock := Nat

/-- A remote address, as the pair host and port. -/
abbrev Addr := String × Nat

/-- A byte sequence on the wire. `enc s` is the UTF-8 encoding of the
string `s` (UTF-8 encoding is injective, so `s` determines the bytes);
`invalid tag` is a nonempty byte sequence that is not valid UTF-8. -/
inductive Bytes where
  | enc (s : String)
  | invalid (tag : Nat)
deriving DecidableEq

/-- `message_bytes.decode("utf-8")`: succeeds exactly on valid UTF-8
(`peer.py` line 118). -/
def Bytes.decode : Bytes → Option String
  | .enc s => some s
  | .invalid _ => none

/-- `if not message_bytes:` (`peer.py` line 114) — the empty byte string is
falsy. A byte sequence that fails UTF-8 decoding is necessarily nonempty
(the empty sequence is valid UTF-8). -/
def Bytes.isEmptyBytes : Bytes → Bool
  | .enc s => s.isEmpty
  | .invalid _ => false

/-- One console notification, tagged by the `print_cli` call site, holding
the data interpolated into the printed line. -/
inductive Notif where
  | conexao (a : Addr)
  | disse (sender content : String)
  | peerRemovido (a : Option Addr)
  | desconectado (a : Addr)
  | conectado (h : String) (p : Nat)
  | erroConectar (h : String) (p : Nat) (e : String)
deriving DecidableEq

/-- One event pushed to the log queue, tagged by the `log_event` call site
(timestamps are dropped), plus the `None` sentinel pushed by `shutdown`. -/
inductive LogEv where
  | estabelecida (a : Addr)
  | recebida (sender content : String)
  | encerrada (a : Addr)
  | removido (a : Option Addr)
  | localEnviada (t : String)
  | conectadoManual (h : String) (p : Nat)
  | falhaConectar (h : String) (p : Nat) (e : String)
  | iniciandoDesligamento
  | desligado
  | sentinel
deriving DecidableEq

/-- The observable state of a `Peer` object, together with the record of
its externally visible effects.

Fields of the Python object: `name`, `host`, `port` (immutable after
`__init__`), `peers` (the registry dict, in insertion order),
`shutdownEvent` (`shutdown_event.is_set()`), `msgSentinelSent`,
`logSentinelSent`, `hasLogQueue` (whether `log_queue` is not `None`) and
`serverClosed` (whether `server_socket` has been closed).

Effect records: `closed` is the set of peer sockets that have been closed
(a socket close on an already closed socket is a no-op), `console` the
sequence of `print_cli` notifications, `logOut` the sequence of items put
on the log queue, `msgQueueOut` the items this peer put on its own message
queue, `sent` the successful socket sends, `attempts` every socket send
attempt (successful or not), `broadcastCalls` every invocation of
`broadcast` with its payload and excluded handle, and `spawned` the
handler threads spawned by `connect_to_peer`. -/
structure PeerSt where
  name : String
  host : String
  port : Nat
  peers : List (Sock × Addr)
  shutdownEvent : Bool
  msgSentinelSent : Bool
  logSentinelSent : Bool
  hasLogQueue : Bool
  serverClosed : Bool
  closed : List Sock
  console : List Notif
  logOut : List LogEv
  msgQueueOut : List (Option String)
  sent : List (Sock × Bytes)
  attempts : List (Sock × Bytes)
  broadcastCalls : List (Bytes × Option Sock)
  spawned : List (Sock × Addr)
deriving DecidableEq

/-- `self.me = f"{self.name} ({self.host}:{self.port})"` (`peer.py`
line 56). -/
def PeerSt.me (st : PeerSt) : String :=
  st.name ++ " (" ++ st.host ++ ":" ++ toString st.port ++ ")"

/-- `Peer.log_event`: puts the event on the log queue when one is
configured, otherwise returns immediately (`peer.py` lines 77-83). -/
def logEvent (st : PeerSt) (e : LogEv) : PeerSt :=
  if st.hasLogQueue then { st with logOut := st.logOut ++ [e] } else st

/-- `Peer.print_cli`: appends one line to the console (`peer.py`
lines 85-93; the prompt redraw is not modelled). -/
def printCli (st : PeerSt) (n : Notif) : PeerSt :=
  { st with console := st.console ++ [n] }

/-- `list(self.peers.keys())`: the registry keys in insertion order. -/
def peerKeys (ps : List (Sock × Addr)) : List Sock :=
  ps.map Prod.fst

/-- `self.peers.pop(s, None)` / `del self.peers[s]`: removal of a key from
the registry (a no-op when the key is absent). -/
def removeKey (ps : List (Sock × Addr)) (s : Sock) : List (Sock × Addr) :=
  ps.filter (fun p => p.1 != s)

/-- The address stored for a handle, as returned by
`self.peers.pop(peer_socket, None)`. -/
def lookupAddr (ps : List (Sock × Addr)) (s : Sock) : Option Addr :=
  (ps.find? (fun p => p.1 == s)).map Prod.snd

/-- `self.peers[client_socket] = addr` (`peer.py` line 103): dict
assignment, replacing in place when the key exists, appending otherwise. -/
def registerPeer (ps : List (Sock × Addr)) (s : Sock) (a : Addr) : List (Sock × Addr) :=
  if (ps.find? (fun p => p.1 == s)).isSome then
    ps.map (fun p => if p.1 == s then (s, a) else p)
  else ps ++ [(s, a)]

/-- `socket.close()` on a peer socket: marks the socket closed; closing an
already closed socket changes nothing. -/
def closeSock (cl : List Sock) (s : Sock) : List Sock :=
  if s ∈ cl then cl else cl ++ [s]

/-- The body of the `for peer_socket in sockets:` loop of `Peer.broadcast`
(`peer.py` lines 149-164) for one snapshot element `s`. The excluded
sender is skipped; otherwise a send of `msg` is attempted (recorded in
`attempts`); on success the send is recorded in `sent`; on failure the
handle is popped from the registry under the lock, its socket closed, and
a removal notification is printed and logged. Whether the send to `s`
fails is given by the environment `fails`. -/
def sendStep (fails : Sock → Bool) (msg : Bytes) (sender : Option Sock)
    (st : PeerSt) (s : Sock) : PeerSt :=
  if sender = some s then st
  else if fails s then
    let st1 := { st with attempts := st.attempts ++ [(s, msg)] }
    let a := lookupAddr st1.peers s
    let st2 := { st1 with peers := removeKey st1.peers s,
                          closed := closeSock st1.closed s }
    logEvent (printCli st2 (.peerRemovido a)) (.removido a)
  else
    { st with attempts := st.attempts ++ [(s, msg)],
              sent := st.sent ++ [(s, msg)] }

/-- `Peer.broadcast` (`peer.py` lines 145-164): snapshot the registry keys
under the lock, then iterate the snapshot sending to every handle other
than the excluded sender. The invocation itself is recorded in
`broadcastCalls`. -/
def broadcast (fails : Sock → Bool) (st : PeerSt) (msg : Bytes)
    (sender : Option Sock) : PeerSt :=
  let socks := peerKeys st.peers
  let st1 := { st with broadcastCalls := st.broadcastCalls ++ [(msg, sender)] }
  socks.foldl (sendStep fails msg sender) st1

/-- Helper for `message.split("|", 1)` on the character list: splits at the
first `|`, returning `none` when no delimiter occurs. -/
def splitOnceAux : List Char → Option (List Char × List Char)
  | [] => none
  | c :: cs =>
    if c = '|' then some ([], cs)
    else
      match splitOnceAux cs with
      | none => none
      | some (a, b) => some (c :: a, b)

/-- `remetente, conteudo = message.split("|", 1)` (`peer.py` line 119):
succeeds exactly when the string contains a `|`, splitting at the first
occurrence (the unpacking into two names raises when no delimiter is
present). -/
def splitOnce (s : String) : Option (String × String) :=
  match splitOnceAux s.data with
  | none => none
  | some (a, b) => some (String.mk a, String.mk b)

/-- The `try` block of `peer.py` lines 117-122: UTF-8 decode then split on
the first delimiter; any failure yields `none` (the `except` clause). -/
def parseEnvelope (b : Bytes) : Option (String × String) :=
  match b.decode with
  | none => none
  | some m => splitOnce m

/-- The outcome of one `client_socket.recv(BUFFER_SIZE)` call:
a `ConnectionResetError`, another `OSError`, or received data (`data
(Bytes.enc "")` is the zero-length read of an orderly remote close). -/
inductive RecvEvent where
  | reset
  | oserror
  | data (b : Bytes)
deriving DecidableEq

/-- One iteration of the receive loop of `Peer.handle_client` (`peer.py`
lines 107-130), after the shutdown check. Returns the new state and
whether the loop continues (`false` means `break`). A reset or socket
error breaks; empty data breaks (orderly close); a payload that fails to
decode or split is ignored and the loop continues; a parsed envelope is
logged, shown on the console and re-broadcast as the original raw bytes
with this connection excluded. -/
def handleRecv (fails : Sock → Bool) (cs : Sock) (st : PeerSt)
    (ev : RecvEvent) : PeerSt × Bool :=
  match ev with
  | .reset => (st, false)
  | .oserror => (st, false)
  | .data b =>
    if b.isEmptyBytes then (st, false)
    else
      match parseEnvelope b with
      | none => (st, true)
      | some (remetente, conteudo) =>
        let st1 := logEvent st (.recebida remetente conteudo)
        let st2 := printCli st1 (.disse remetente conteudo)
        (broadcast fails st2 b (some cs), true)

/-- The `while not self.shutdown_event.is_set():` receive loop of
`Peer.handle_client` (`peer.py` lines 106-130), driven by a finite script
of receive outcomes. The loop exits when the shutdown event is observed,
when an iteration breaks, or when the script is exhausted. -/
def clientLoop (fails : Sock → Bool) (cs : Sock) : PeerSt → List RecvEvent → PeerSt
  | st, [] => st
  | st, ev :: rest =>
    if st.shutdownEvent then st
    else
      let r := handleRecv fails cs st ev
      if r.2 then clientLoop fails cs r.1 rest else r.1

/-- The `finally` block of `Peer.handle_client` (`peer.py` lines 131-142):
remove this connection from the registry if still present, close its
socket best-effort, and emit the disconnection notification and log
event. -/
def clientCleanup (cs : Sock) (addr : Addr) (st : PeerSt) : PeerSt :=
  let st1 := { st with peers := removeKey st.peers cs }
  let st2 := { st1 with closed := closeSock st1.closed cs }
  logEvent (printCli st2 (.desconectado addr)) (.encerrada addr)

/-- `Peer.handle_client` (`peer.py` lines 98-142): announce and register
the connection, run the receive loop, and always run the cleanup of the
`finally` block exactly once afterwards. -/
def handleClient (fails : Sock → Bool) (cs : Sock) (addr : Addr)
    (st : PeerSt) (script : List RecvEvent) : PeerSt :=
  let st1 := printCli st (.conexao addr)
  let st2 := logEvent st1 (.estabelecida addr)
  let st3 := { st2 with peers := registerPeer st2.peers cs addr }
  clientCleanup cs addr (clientLoop fails cs st3 script)

/-- The code points Python `str.strip()` strips: exactly those for which
`str.isspace()` holds (CPython's Py_UNICODE_ISSPACE) — the ASCII
whitespace 0x09-0x0d and 0x20, the separator controls 0x1c-0x1f, NEL
0x85, and the Unicode space characters 0xa0, 0x1680, 0x2000-0x200a,
0x2028, 0x2029, 0x202f, 0x205f and 0x3000. -/
def pyWhitespace : List Nat :=
  [0x09, 0x0a, 0x0b, 0x0c, 0x0d, 0x1c, 0x1d, 0x1e, 0x1f, 0x20, 0x85, 0xa0,
   0x1680, 0x2000, 0x2001, 0x2002, 0x2003, 0x2004, 0x2005, 0x2006, 0x2007,
   0x2008, 0x2009, 0x200a, 0x2028, 0x2029, 0x202f, 0x205f, 0x3000]

/-- Whether Python `str.strip()` strips this character. -/
def pyIsSpace (c : Char) : Bool :=
  pyWhitespace.contains c.toNat

/-- Python `msg_content.strip()` (`peer.py` line 215): drop whitespace
from both ends. -/
def pyStrip (s : String) : String :=
  String.mk (((s.data.dropWhile pyIsSpace).reverse.dropWhile pyIsSpace).reverse)

/-- `Peer.process_messages` (`peer.py` lines 208-220), driven by the finite
list of items the queue yields: stop at the `None` sentinel, skip blank
text, and otherwise log, prefix with the peer identity and the delimiter,
encode, and broadcast with no excluded handle. -/
def processMessages (fails : Sock → Bool) : PeerSt → List (Option String) → PeerSt
  | st, [] => st
  | st, none :: _ => st
  | st, some t :: rest =>
    if pyStrip t = "" then processMessages fails st rest
    else
      let st1 := logEvent st (.localEnviada t)
      let st2 := broadcast fails st1 (Bytes.enc (st1.me ++ "|" ++ t)) none
      processMessages fails st2 rest

/-- `Peer.connect_to_peer` (`peer.py` lines 189-205). The dial outcome is
given by the environment: on success a handler thread is spawned for the
new socket (registration happens inside `handle_client`, on that thread)
and a connected notification is printed and logged; on failure (the
`except` clause) an error notification carrying the exception text is
printed and logged. The function is total: it never raises. -/
def connectToPeer (st : PeerSt) (peerHost : String) (peerPort : Nat)
    (dial : Except String Sock) : PeerSt :=
  match dial with
  | .ok cs =>
    let st1 := { st with spawned := st.spawned ++ [(cs, (peerHost, peerPort))] }
    logEvent (printCli st1 (.conectado peerHost peerPort)) (.conectadoManual peerHost peerPort)
  | .error exc =>
    logEvent (printCli st (.erroConectar peerHost peerPort exc)) (.falhaConectar peerHost peerPort exc)

/-- `Peer.shutdown` (`peer.py` lines 317-353): set the shutdown event
(logging the start of the shutdown only when this call set it), close the
server socket, shut down and close every registered peer socket and clear
the registry under the lock, push the message-queue sentinel unless
already pushed, and push the `"Peer desligado."` log event and the log
sentinel unless already pushed. -/
def shutdown (st : PeerSt) : PeerSt :=
  let justSet := !st.shutdownEvent
  let st1 := { st with shutdownEvent := true }
  let st2 := if justSet then logEvent st1 .iniciandoDesligamento else st1
  let st3 := { st2 with serverClosed := true }
  let st5 := { st3 with closed := (peerKeys st3.peers).foldl closeSock st3.closed,
                        peers := [] }
  let st6 :=
    if !st5.msgSentinelSent then
      { st5 with msgQueueOut := st5.msgQueueOut ++ [none], msgSentinelSent := true }
    else st5
  if st6.hasLogQueue && !st6.logSentinelSent then
    let st7 := logEvent st6 .desligado
    { st7 with logOut := st7.logOut ++ [.sentinel], logSentinelSent := true }
  else st6

/-- A lock or network operation, used to trace which network calls are
performed while the registry lock is held. -/
inductive TEv where
  | acquire
  | release
  | netSend (s : Sock)
  | netClose (s : Sock)
  | netShutdownCall (s : Sock)
  | netCloseServer
deriving DecidableEq

/-- Whether a trace event is a network call (send, close, or socket
shutdown). -/
def isNetOp : TEv → Bool
  | .acquire => false
  | .release => false
  | _ => true

/-- Whether a trace performs some network call while the lock is held,
starting from lock depth `d`. -/
def heldViolation : List TEv → Nat → Bool
  | [], _ => false
  | .acquire :: r, d => heldViolation r (d + 1)
  | .release :: r, d => heldViolation r (d - 1)
  | e :: r, d => (isNetOp e && decide (0 < d)) || heldViolation r d

/-- The lock depth after running a trace from depth `d`. -/
def depthAfter : List TEv → Nat → Nat
  | [], d => d
  | .acquire :: r, d => depthAfter r (d + 1)
  | .release :: r, d => depthAfter r (d - 1)
  | _ :: r, d => depthAfter r d

/-- The lock and network operations of one iteration of the send loop of
`Peer.broadcast` (`peer.py` lines 149-164): the send happens outside the
lock; on failure the lock is taken only for the registry pop, and the
close happens after it is released. -/
def broadcastSegment (fails : Sock → Bool) (sender : Option Sock) (s : Sock) : List TEv :=
  if sender = some s then []
  else if fails s then [.netSend s, .acquire, .release, .netClose s]
  else [.netSend s]

/-- The lock and network operations of `Peer.broadcast` (`peer.py`
lines 145-164): the lock is taken and released for the snapshot, then the
snapshot is iterated. -/
def broadcastTrace (fails : Sock → Bool) (sender : Option Sock)
    (socks : List Sock) : List TEv :=
  [.acquire, .release] ++ (socks.map (broadcastSegment fails sender)).flatten

/-- The lock and network operations of `Peer.shutdown` (`peer.py`
lines 323-338): the server socket is closed outside the lock, then the
`with self.lock:` block shuts down and closes every registered peer socket
and clears the registry before releasing the lock. -/
def shutdownTrace (socks : List Sock) : List TEv :=
  [.netCloseServer, .acquire] ++
    (socks.map (fun s => [.netShutdownCall s, .netClose s])).flatten ++ [.release]

/-- Spec-side description of the consumer's output, for comparison with
`processMessages`: the broadcast payloads promised for a queue script, in
enqueue order — each non-blank text before the first sentinel becomes the
identity token, the delimiter and the text, encoded, with no excluded
handle; the first sentinel stops consumption. -/
def specLocalPayloads (me : String) : List (Option String) → List (Bytes × Option Sock)
  | [] => []
  | none :: _ => []
  | some t :: rest =>
    if pyStrip t = "" then specLocalPayloads me rest
    else (Bytes.enc (me ++ "|" ++ t), none) :: specLocalPayloads me rest

/-- A send environment where every send succeeds. -/
def sendOk : Sock → Bool := fun _ => false

/-- A freshly initialised peer state for `alice` at `127.0.0.1:5000` with a
log queue configured and no connections yet. -/
def st0 : PeerSt :=
  { name := "alice", host := "127.0.0.1", port := 5000, peers := [],
    shutdownEvent := false, msgSentinelSent := false, logSentinelSent := false,
    hasLogQueue := true, serverClosed := false, closed := [], console := [],
    logOut := [], msgQueueOut := [], sent := [], attempts := [],
    broadcastCalls := [], spawned := [] }

/-- `st0` with three registered connections, handles 1, 2 and 3. -/
def st3p : PeerSt :=
  { st0 with peers := [(1, ("10.0.0.1", 6001)), (2, ("10.0.0.2", 6002)),
                       (3, ("10.0.0.3", 6003))] }

/-! ## Basic facts about the effect primitives -/

theorem logEvent_console (st : PeerSt) (e : LogEv) : (logEvent st e).console = st.console := by
  unfold logEvent; split <;> rfl

theorem logEvent_peers (st : PeerSt) (e : LogEv) : (logEvent st e).peers = st.peers := by
  unfold logEvent; split <;> rfl

theorem logEvent_closed (st : PeerSt) (e : LogEv) : (logEvent st e).closed = st.closed := by
  unfold logEvent; split <;> rfl

theorem logEvent_sent (st : PeerSt) (e : LogEv) : (logEvent st e).sent = st.sent := by
  unfold logEvent; split <;> rfl

theorem logEvent_attempts (st : PeerSt) (e : LogEv) : (logEvent st e).attempts = st.attempts := by
  unfold logEvent; split <;> rfl

theorem logEvent_broadcastCalls (st : PeerSt) (e : LogEv) :
    (logEvent st e).broadcastCalls = st.broadcastCalls := by
  unfold logEvent; split <;> rfl

theorem logEvent_me (st : PeerSt) (e : LogEv) : (logEvent st e).me = st.me := by
  unfold logEvent PeerSt.me; split <;> rfl

theorem logEvent_shutdownEvent (st : PeerSt) (e : LogEv) :
    (logEvent st e).shutdownEvent = st.shutdownEvent := by
  unfold logEvent; split <;> rfl

theorem logEvent_logOut (st : PeerSt) (e : LogEv) :
    (logEvent st e).logOut = st.logOut ++ (if st.hasLogQueue then [e] else []) := by
  unfold logEvent; split <;> simp

/-! ## Characterisation of one broadcast send step -/

theorem sendStep_peers (fails : Sock → Bool) (m : Bytes) (sdr : Option Sock)
    (st : PeerSt) (s : Sock) :
    (sendStep fails m sdr st s).peers =
      if sdr = some s then st.peers
      else if fails s then removeKey st.peers s else st.peers := by
  unfold sendStep
  by_cases h1 : sdr = some s <;> by_cases h2 : fails s <;>
    simp [h1, h2, logEvent_peers, printCli]

theorem sendStep_closed (fails : Sock → Bool) (m : Bytes) (sdr : Option Sock)
    (st : PeerSt) (s : Sock) :
    (sendStep fails m sdr st s).closed =
      if sdr = some s then st.closed
      else if fails s then closeSock st.closed s else st.closed := by
  unfold sendStep
  by_cases h1 : sdr = some s <;> by_cases h2 : fails s <;>
    simp [h1, h2, logEvent_closed, printCli]

theorem sendStep_attempts (fails : Sock → Bool) (m : Bytes) (sdr : Option Sock)
    (st : PeerSt) (s : Sock) :
    (sendStep fails m sdr st s).attempts =
      st.attempts ++ (if sdr = some s then [] else [(s, m)]) := by
  unfold sendStep
  by_cases h1 : sdr = some s <;> by_cases h2 : fails s <;>
    simp [h1, h2, logEvent_attempts, printCli]

theorem sendStep_sent (fails : Sock → Bool) (m : Bytes) (sdr : Option Sock)
    (st : PeerSt) (s : Sock) :
    (sendStep fails m sdr st s).sent =
      st.sent ++ (if sdr = some s then [] else if fails s then [] else [(s, m)]) := by
  unfold sendStep
  by_cases h1 : sdr = some s <;> by_cases h2 : fails s <;>
    simp [h1, h2, logEvent_sent, printCli]

theorem sendStep_broadcastCalls (fails : Sock → Bool) (m : Bytes) (sdr : Option Sock)
    (st : PeerSt) (s : Sock) :
    (sendStep fails m sdr st s).broadcastCalls = st.broadcastCalls := by
  unfold sendStep
  by_cases h1 : sdr = some s <;> by_cases h2 : fails s <;>
    simp [h1, h2, logEvent_broadcastCalls, printCli]

theorem sendStep_me (fails : Sock → Bool) (m : Bytes) (sdr : Option Sock)
    (st : PeerSt) (s : Sock) :
    (sendStep fails m sdr st s).me = st.me := by
  unfold sendStep PeerSt.me
  by_cases h1 : sdr = some s <;> by_cases h2 : fails s <;>
    simp [h1, h2, logEvent, printCli, apply_ite]

theorem sendStep_console (fails : Sock → Bool) (m : Bytes) (sdr : Option Sock)
    (st : PeerSt) (s : Sock) :
    (sendStep fails m sdr st s).console =
      st.console ++
        (if sdr = some s then []
         else if fails s then [Notif.peerRemovido (lookupAddr st.peers s)] else []) := by
  unfold sendStep
  by_cases h1 : sdr = some s <;> by_cases h2 : fails s <;>
    simp [h1, h2, logEvent_console, printCli]

/-! ## Registry and close-set helpers -/

theorem mem_closeSock_self (cl : List Sock) (s : Sock) : s ∈ closeSock cl s := by
  unfold closeSock; split
  · assumption
  · simp

theorem mem_closeSock_of_mem (cl : List Sock) (s a : Sock) (ha : a ∈ cl) :
    a ∈ closeSock cl s := by
  unfold closeSock; split
  · exact ha
  · exact List.mem_append_left _ ha

theorem mem_peerKeys_of_mem_removeKey (ps : List (Sock × Addr)) (x a : Sock)
    (ha : a ∈ peerKeys (removeKey ps x)) : a ∈ peerKeys ps := by
  rw [peerKeys, List.mem_map] at ha
  obtain ⟨p, hp, hpk⟩ := ha
  rw [removeKey, List.mem_filter] at hp
  rw [peerKeys, List.mem_map]
  exact ⟨p, hp.1, hpk⟩

theorem not_mem_peerKeys_removeKey (ps : List (Sock × Addr)) (s : Sock) :
    s ∉ peerKeys (removeKey ps s) := by
  intro h
  rw [peerKeys, List.mem_map] at h
  obtain ⟨p, hp, hpk⟩ := h
  rw [removeKey, List.mem_filter] at hp
  have h2 := hp.2
  simp [hpk] at h2

/-! ## Folding the send step over a snapshot -/

theorem foldl_sendStep_broadcastCalls (fails : Sock → Bool) (m : Bytes) (sdr : Option Sock)
    (l : List Sock) (st : PeerSt) :
    (l.foldl (sendStep fails m sdr) st).broadcastCalls = st.broadcastCalls := by
  induction l generalizing st with
  | nil => rfl
  | cons s l ih => rw [List.foldl_cons, ih, sendStep_broadcastCalls]

theorem foldl_sendStep_me (fails : Sock → Bool) (m : Bytes) (sdr : Option Sock)
    (l : List Sock) (st : PeerSt) :
    (l.foldl (sendStep fails m sdr) st).me = st.me := by
  induction l generalizing st with
  | nil => rfl
  | cons s l ih => rw [List.foldl_cons, ih, sendStep_me]

theorem foldl_sendStep_attempts (fails : Sock → Bool) (m : Bytes) (ex : Sock)
    (l : List Sock) (st : PeerSt) :
    (l.foldl (sendStep fails m (some ex)) st).attempts =
      st.attempts ++ (l.filter (fun s => s != ex)).map (fun s => (s, m)) := by
  induction l generalizing st with
  | nil => simp
  | cons s l ih =>
    rw [List.foldl_cons, ih, sendStep_attempts]
    by_cases h : s = ex
    · subst h; simp
    · have hx : ¬ ex = s := fun hc => h hc.symm
      simp [h, hx, List.filter_cons]

theorem foldl_sendStep_not_mem_peers (fails : Sock → Bool) (m : Bytes) (sdr : Option Sock)
    (l : List Sock) (st : PeerSt) (s : Sock) (hs : s ∉ peerKeys st.peers) :
    s ∉ peerKeys (l.foldl (sendStep fails m sdr) st).peers := by
  induction l generalizing st with
  | nil => exact hs
  | cons x l ih =>
    rw [List.foldl_cons]
    apply ih
    rw [sendStep_peers]
    split
    · exact hs
    · split
      · exact fun hc => hs (mem_peerKeys_of_mem_removeKey _ _ _ hc)
      · exact hs

theorem foldl_sendStep_mem_closed (fails : Sock → Bool) (m : Bytes) (sdr : Option Sock)
    (l : List Sock) (st : PeerSt) (s : Sock) (hs : s ∈ st.closed) :
    s ∈ (l.foldl (sendStep fails m sdr) st).closed := by
  induction l generalizing st with
  | nil => exact hs
  | cons x l ih =>
    rw [List.foldl_cons]
    apply ih
    rw [sendStep_closed]
    split
    · exact hs
    · split
      · exact mem_closeSock_of_mem _ _ _ hs
      · exact hs

theorem foldl_sendStep_mem_sent (fails : Sock → Bool) (m : Bytes) (sdr : Option Sock)
    (l : List Sock) (st : PeerSt) (p : Sock × Bytes) (hs : p ∈ st.sent) :
    p ∈ (l.foldl (sendStep fails m sdr) st).sent := by
  induction l generalizing st with
  | nil => exact hs
  | cons x l ih =>
    rw [List.foldl_cons]
    apply ih
    rw [sendStep_sent]
    exact List.mem_append_left _ hs

/-! ## Characterisation of a whole broadcast call -/

theorem broadcast_broadcastCalls (fails : Sock → Bool) (st : PeerSt) (m : Bytes)
    (sdr : Option Sock) :
    (broadcast fails st m sdr).broadcastCalls = st.broadcastCalls ++ [(m, sdr)] := by
  unfold broadcast
  rw [foldl_sendStep_broadcastCalls]

theorem broadcast_me (fails : Sock → Bool) (st : PeerSt) (m : Bytes) (sdr : Option Sock) :
    (broadcast fails st m sdr).me = st.me := by
  unfold broadcast
  rw [foldl_sendStep_me]
  unfold PeerSt.me
  rfl

theorem broadcast_attempts (fails : Sock → Bool) (st : PeerSt) (m : Bytes) (ex : Sock) :
    (broadcast fails st m (some ex)).attempts =
      st.attempts ++ ((peerKeys st.peers).filter (fun s => s != ex)).map (fun s => (s, m)) := by
  unfold broadcast
  rw [foldl_sendStep_attempts]

theorem length_filter_ne_of_nodup (l : List Sock) (a : Sock) (hnd : l.Nodup) (ha : a ∈ l) :
    (l.filter (fun s => s != a)).length = l.length - 1 := by
  induction l with
  | nil => cases ha
  | cons s l ih =>
    rw [List.nodup_cons] at hnd
    rcases List.mem_cons.mp ha with h | h
    · subst h
      have hfe : l.filter (fun x => x != a) = l := by
        apply List.filter_eq_self.mpr
        intro x hx
        have hxa : ¬ x = a := fun hc => hnd.1 (hc ▸ hx)
        simp [hxa]
      simp [List.filter_cons, hfe]
    · have hsa : ¬ s = a := fun hc => hnd.1 (hc ▸ h)
      have hlen := ih hnd.2 h
      have hpos : 0 < l.length := List.length_pos.mpr (List.ne_nil_of_mem h)
      have hbne : (s != a) = true := by simp [hsa]
      simp [List.filter_cons, hbne]
      omega

theorem foldl_sendStep_evict (fails : Sock → Bool) (m : Bytes) (ex : Sock)
    (l2 : List Sock) (mid : PeerSt) (s : Sock) (hne : ¬ ex = s) (hf : fails s = true) :
    s ∉ peerKeys (l2.foldl (sendStep fails m (some ex))
        (sendStep fails m (some ex) mid s)).peers ∧
    s ∈ (l2.foldl (sendStep fails m (some ex))
        (sendStep fails m (some ex) mid s)).closed := by
  have hstep : (sendStep fails m (some ex) mid s).peers = removeKey mid.peers s := by
    rw [sendStep_peers]; simp [hne, hf]
  have hclos : (sendStep fails m (some ex) mid s).closed = closeSock mid.closed s := by
    rw [sendStep_closed]; simp [hne, hf]
  constructor
  · apply foldl_sendStep_not_mem_peers
    rw [hstep]
    exact not_mem_peerKeys_removeKey _ _
  · apply foldl_sendStep_mem_closed
    rw [hclos]
    exact mem_closeSock_self _ _

theorem foldl_sendStep_sends (fails : Sock → Bool) (m : Bytes) (ex : Sock)
    (l2 : List Sock) (mid : PeerSt) (s : Sock) (hne : ¬ ex = s) (hf : fails s = false) :
    (s, m) ∈ (l2.foldl (sendStep fails m (some ex))
        (sendStep fails m (some ex) mid s)).sent := by
  apply foldl_sendStep_mem_sent
  rw [sendStep_sent]
  simp [hne, hf]

/-- C1: with the excluded handle registered, `broadcast` attempts delivery
of the full payload to exactly the non-excluded registered handles (one
attempt each, N−1 of them, whatever the send outcomes are, so one failure
never suppresses the attempt to another connection); every handle whose
send fails ends up removed from the registry with its socket closed; every
handle whose send succeeds receives the full payload. -/
theorem C1_broadcast_delivery (st : PeerSt) (fails : Sock → Bool) (m : Bytes) (ex : Sock)
    (hnd : (peerKeys st.peers).Nodup) (hex : ex ∈ peerKeys st.peers) :
    (broadcast fails st m (some ex)).attempts =
      st.attempts ++
        ((peerKeys st.peers).filter (fun s => s != ex)).map (fun s => (s, m)) ∧
    ((peerKeys st.peers).filter (fun s => s != ex)).length =
      (peerKeys st.peers).length - 1 ∧
    (∀ s, s ∈ peerKeys st.peers → s ≠ ex → fails s = true →
      s ∉ peerKeys (broadcast fails st m (some ex)).peers ∧
      s ∈ (broadcast fails st m (some ex)).closed) ∧
    (∀ s, s ∈ peerKeys st.peers → s ≠ ex → fails s = false →
      (s, m) ∈ (broadcast fails st m (some ex)).sent) := by
  have hbc : broadcast fails st m (some ex) =
      (peerKeys st.peers).foldl (sendStep fails m (some ex))
        { st with broadcastCalls := st.broadcastCalls ++ [(m, some ex)] } := rfl
  refine ⟨broadcast_attempts fails st m ex, length_filter_ne_of_nodup _ _ hnd hex, ?_, ?_⟩
  · intro s hs hne hf
    obtain ⟨l1, l2, hsplit⟩ := List.append_of_mem hs
    rw [hbc, hsplit, List.foldl_append, List.foldl_cons]
    exact foldl_sendStep_evict fails m ex l2 _ s (fun hc => hne hc.symm) hf
  · intro s hs hne hf
    obtain ⟨l1, l2, hsplit⟩ := List.append_of_mem hs
    rw [hbc, hsplit, List.foldl_append, List.foldl_cons]
    exact foldl_sendStep_sends fails m ex l2 _ s (fun hc => hne hc.symm) hf

/-- Witness for C1: three registered handles 1, 2, 3; handle 2 excluded;
the send to handle 3 fails. -/
theorem C1_witness :
    (peerKeys st3p.peers).Nodup ∧ 2 ∈ peerKeys st3p.peers ∧
    ((broadcast (fun s => s == 3) st3p (Bytes.enc "x") (some 2)).attempts =
      st3p.attempts ++
        ((peerKeys st3p.peers).filter (fun s => s != 2)).map (fun s => (s, Bytes.enc "x")) ∧
    ((peerKeys st3p.peers).filter (fun s => s != 2)).length =
      (peerKeys st3p.peers).length - 1 ∧
    (∀ s, s ∈ peerKeys st3p.peers → s ≠ 2 → (fun s => s == 3) s = true →
      s ∉ peerKeys (broadcast (fun s => s == 3) st3p (Bytes.enc "x") (some 2)).peers ∧
      s ∈ (broadcast (fun s => s == 3) st3p (Bytes.enc "x") (some 2)).closed) ∧
    (∀ s, s ∈ peerKeys st3p.peers → s ≠ 2 → (fun s => s == 3) s = false →
      (s, Bytes.enc "x") ∈ (broadcast (fun s => s == 3) st3p (Bytes.enc "x") (some 2)).sent)) :=
  ⟨by decide, by decide,
    C1_broadcast_delivery st3p (fun s => s == 3) (Bytes.enc "x") 2 (by decide) (by decide)⟩

theorem logEvent_spawned (st : PeerSt) (e : LogEv) : (logEvent st e).spawned = st.spawned := by
  unfold logEvent; split <;> rfl

/-- C2: a received byte sequence that does not decode as UTF-8 or contains
no delimiter is discarded with no side effects at all — the state is
returned unchanged (no broadcast, no notification, registry untouched) and
the receive loop continues. -/
theorem C2_malformed_discarded (fails : Sock → Bool) (cs : Sock) (st : PeerSt) (b : Bytes)
    (hne : b.isEmptyBytes = false) (hbad : parseEnvelope b = none) :
    handleRecv fails cs st (.data b) = (st, true) := by
  simp [handleRecv, hne, hbad]

/-- Witness for C2: a non-UTF-8 byte sequence and the delimiter-free
payload `"hello"` are both discarded without side effects. -/
theorem C2_witness :
    (Bytes.invalid 0).isEmptyBytes = false ∧ parseEnvelope (Bytes.invalid 0) = none ∧
    (Bytes.enc "hello").isEmptyBytes = false ∧ parseEnvelope (Bytes.enc "hello") = none ∧
    handleRecv sendOk 1 st0 (.data (Bytes.invalid 0)) = (st0, true) ∧
    handleRecv sendOk 1 st0 (.data (Bytes.enc "hello")) = (st0, true) :=
  ⟨by decide, by decide, by decide, by decide,
    C2_malformed_discarded sendOk 1 st0 (Bytes.invalid 0) (by decide) (by decide),
    C2_malformed_discarded sendOk 1 st0 (Bytes.enc "hello") (by decide) (by decide)⟩

/-- C5: a non-blank dequeued local text is broadcast as exactly the peer
identity token, the delimiter and the text, encoded, with no excluded
handle. -/
theorem C5_local_format (fails : Sock → Bool) (st : PeerSt) (t : String)
    (hnb : ¬ pyStrip t = "") :
    (processMessages fails st [some t]).broadcastCalls =
      st.broadcastCalls ++ [(Bytes.enc (st.me ++ "|" ++ t), none)] := by
  simp [processMessages, hnb, broadcast_broadcastCalls, logEvent_broadcastCalls, logEvent_me]

/-- Witness for C5: local text `"hi"` at identity
`"alice (127.0.0.1:5000)"` yields exactly the encoded byte sequence
`"alice (127.0.0.1:5000)|hi"`. -/
theorem C5_witness : (¬ pyStrip "hi" = "") ∧
    (processMessages sendOk st0 [some "hi"]).broadcastCalls =
      st0.broadcastCalls ++ [(Bytes.enc "alice (127.0.0.1:5000)|hi", none)] := by
  refine ⟨by decide, ?_⟩
  have h := C5_local_format sendOk st0 "hi" (by decide)
  rw [h]
  decide

/-- C6: a failed dial leaves the registry unchanged, spawns no handler,
issues no broadcast, and emits a console error notification and a log
event both carrying the underlying cause; the function is total, so the
failure is never fatal. -/
theorem C6_dial_failure (st : PeerSt) (ph : String) (pp : Nat) (exc : String) :
    (connectToPeer st ph pp (.error exc)).peers = st.peers ∧
    (connectToPeer st ph pp (.error exc)).spawned = st.spawned ∧
    (connectToPeer st ph pp (.error exc)).broadcastCalls = st.broadcastCalls ∧
    (connectToPeer st ph pp (.error exc)).console =
      st.console ++ [Notif.erroConectar ph pp exc] ∧
    (connectToPeer st ph pp (.error exc)).logOut =
      st.logOut ++ (if st.hasLogQueue then [LogEv.falhaConectar ph pp exc] else []) := by
  unfold connectToPeer
  refine ⟨?_, ?_, ?_, ?_, ?_⟩ <;>
    simp [logEvent_peers, logEvent_spawned, logEvent_broadcastCalls, logEvent_console,
      logEvent_logOut, printCli]

/-- C10: a dequeued text that is empty or all whitespace is skipped with no
side effects: the consumer state is exactly what it is when continuing
with the remaining items. -/
theorem C10_blank_discarded (fails : Sock → Bool) (st : PeerSt) (t : String)
    (rest : List (Option String)) (hb : pyStrip t = "") :
    processMessages fails st (some t :: rest) = processMessages fails st rest := by
  simp [processMessages, hb]

/-- Witness for C10: the all-whitespace items `"  "` and the no-break
space `"\u00a0"` (whitespace for Python `str.strip()` beyond the ASCII
set) are both discarded. -/
theorem C10_witness : pyStrip "  " = "" ∧ pyStrip "\u00a0" = "" ∧
    processMessages sendOk st0 [some "  "] = processMessages sendOk st0 [] ∧
    processMessages sendOk st0 [some "\u00a0"] = processMessages sendOk st0 [] :=
  ⟨by decide, by decide,
   C10_blank_discarded sendOk st0 "  " [] (by decide),
   C10_blank_discarded sendOk st0 "\u00a0" [] (by decide)⟩

/-! ## The queue consumer -/

theorem processMessages_calls (fails : Sock → Bool) (script : List (Option String)) :
    ∀ st : PeerSt, (processMessages fails st script).broadcastCalls =
      st.broadcastCalls ++ specLocalPayloads st.me script := by
  induction script with
  | nil => intro st; simp [processMessages, specLocalPayloads]
  | cons o rest ih =>
    intro st
    cases o with
    | none => simp [processMessages, specLocalPayloads]
    | some t =>
      by_cases hb : pyStrip t = ""
      · simp [processMessages, specLocalPayloads, hb, ih]
      · simp [processMessages, specLocalPayloads, hb, ih, broadcast_broadcastCalls,
          logEvent_broadcastCalls, logEvent_me, broadcast_me]

theorem processMessages_sentinel (fails : Sock → Bool) (script : List (Option String)) :
    ∀ (st : PeerSt) (post : List (Option String)),
      processMessages fails st (script ++ none :: post) =
      processMessages fails st (script ++ [none]) := by
  induction script with
  | nil => intro st post; simp [processMessages]
  | cons o rest ih =>
    intro st post
    cases o with
    | none => simp [processMessages]
    | some t =>
      by_cases hb : pyStrip t = ""
      · simp [processMessages, hb, ih]
      · simp [processMessages, hb, ih]

/-- C8: the consumer broadcasts local messages in exactly the enqueue
order — the sequence of broadcast calls is the enqueue-ordered payload
sequence promised by the spec — and the first sentinel terminates it
without processing any later item. -/
theorem C8_fifo_consumer (fails : Sock → Bool) (st : PeerSt) (script : List (Option String)) :
    (processMessages fails st script).broadcastCalls =
      st.broadcastCalls ++ specLocalPayloads st.me script ∧
    (∀ post, processMessages fails st (script ++ none :: post) =
      processMessages fails st (script ++ [none])) :=
  ⟨processMessages_calls fails script st, fun post => processMessages_sentinel fails script st post⟩

/-! ## Envelope splitting -/

theorem splitOnceAux_first (pre : List Char) :
    ∀ post : List Char, '|' ∉ pre → splitOnceAux (pre ++ '|' :: post) = some (pre, post) := by
  induction pre with
  | nil => intro post h; simp [splitOnceAux]
  | cons c cs ih =>
    intro post h
    have hc : ¬ c = '|' := fun hc2 => h (hc2 ▸ List.mem_cons_self c cs)
    have hr := ih post (fun hm => h (List.mem_cons_of_mem c hm))
    simp [splitOnceAux, hc, hr]

theorem data_append_delim (s1 s2 : String) :
    (s1 ++ "|" ++ s2).data = s1.data ++ '|' :: s2.data := by
  have hbar : ("|" : String).data = ['|'] := by decide
  rw [String.data_append, String.data_append, hbar]
  simp

theorem splitOnce_first (s1 s2 : String) (h : '|' ∉ s1.data) :
    splitOnce (s1 ++ "|" ++ s2) = some (s1, s2) := by
  unfold splitOnce
  rw [data_append_delim, splitOnceAux_first s1.data s2.data h]

theorem append_delim_ne_empty (s1 s2 : String) :
    (Bytes.enc (s1 ++ "|" ++ s2)).isEmptyBytes = false := by
  have hne : ¬ (s1 ++ "|" ++ s2) = "" := by
    intro hc
    have h2 : (s1 ++ "|" ++ s2).data = [] := by rw [hc]
    rw [data_append_delim] at h2
    exact absurd h2 (by simp)
  simp only [Bytes.isEmptyBytes]
  rw [Bool.eq_false_iff]
  intro hc
  exact hne ((String.isEmpty_iff (s1 ++ "|" ++ s2)).mp hc)

/-- C7: only the first delimiter occurrence splits sender from content —
the parsed sender is the segment before the first delimiter and the parsed
content everything after it, whatever delimiters it embeds — and the
session handler re-broadcasts exactly the original raw bytes, excluding
the arrival connection, and keeps the loop running. -/
theorem C7_first_delimiter (fails : Sock → Bool) (cs : Sock) (st : PeerSt)
    (sender content : String) (hs : '|' ∉ sender.data) :
    splitOnce (sender ++ "|" ++ content) = some (sender, content) ∧
    (handleRecv fails cs st (.data (Bytes.enc (sender ++ "|" ++ content)))).1.broadcastCalls =
      st.broadcastCalls ++ [(Bytes.enc (sender ++ "|" ++ content), some cs)] ∧
    (handleRecv fails cs st (.data (Bytes.enc (sender ++ "|" ++ content)))).2 = true := by
  have hsplit := splitOnce_first sender content hs
  have hparse : parseEnvelope (Bytes.enc (sender ++ "|" ++ content)) =
      some (sender, content) := by
    simp [parseEnvelope, Bytes.decode, hsplit]
  refine ⟨hsplit, ?_, ?_⟩ <;>
    simp [handleRecv, append_delim_ne_empty, hparse, broadcast_broadcastCalls,
      logEvent_broadcastCalls, printCli]

/-- Witness for C7: sender `"alice"`, content `"a|b"` with an embedded
delimiter. -/
theorem C7_witness : '|' ∉ ("alice" : String).data ∧
    (splitOnce ("alice" ++ "|" ++ "a|b") = some ("alice", "a|b") ∧
     (handleRecv sendOk 1 st0 (.data (Bytes.enc ("alice" ++ "|" ++ "a|b")))).1.broadcastCalls =
       st0.broadcastCalls ++ [(Bytes.enc ("alice" ++ "|" ++ "a|b"), some 1)] ∧
     (handleRecv sendOk 1 st0 (.data (Bytes.enc ("alice" ++ "|" ++ "a|b")))).2 = true) :=
  ⟨by decide, C7_first_delimiter sendOk 1 st0 "alice" "a|b" (by decide)⟩

/-! ## Shutdown coordination -/

theorem shutdown_shutdown (st : PeerSt) : shutdown (shutdown st) = shutdown st := by
  rcases st with ⟨nm, ho, po, ps, sde, mss, lss, hlq, sc, cl, co, lo, mq, se, att, bc, sp⟩
  cases sde <;> cases mss <;> cases lss <;> cases hlq <;>
    simp [shutdown, logEvent, peerKeys]

theorem shutdown_logOut_count (st : PeerSt) :
    (shutdown st).logOut.count LogEv.sentinel =
      st.logOut.count LogEv.sentinel +
        (if st.hasLogQueue && !st.logSentinelSent then 1 else 0) := by
  rcases st with ⟨nm, ho, po, ps, sde, mss, lss, hlq, sc, cl, co, lo, mq, se, att, bc, sp⟩
  cases sde <;> cases mss <;> cases lss <;> cases hlq <;>
    simp [shutdown, logEvent, List.count_append, List.count_cons]

/-- C3: a second (and any later) invocation of `shutdown` after the first
is a no-op — the state, including which sockets are closed and what was
pushed to the queues, is unchanged — and the log sink receives exactly one
sentinel overall. -/
theorem C3_shutdown_idempotent (st : PeerSt)
    (hq : st.hasLogQueue = true) (hs : st.logSentinelSent = false)
    (hc : st.logOut.count LogEv.sentinel = 0) :
    shutdown (shutdown st) = shutdown st ∧
    (shutdown st).logOut.count LogEv.sentinel = 1 ∧
    (shutdown (shutdown st)).logOut.count LogEv.sentinel = 1 := by
  refine ⟨shutdown_shutdown st, ?_, ?_⟩
  · rw [shutdown_logOut_count, hc, hq, hs]
    simp
  · rw [shutdown_shutdown, shutdown_logOut_count, hc, hq, hs]
    simp

/-- Witness for C3: the fresh state `st0` with a log queue configured. -/
theorem C3_witness : st0.hasLogQueue = true ∧ st0.logSentinelSent = false ∧
    st0.logOut.count LogEv.sentinel = 0 ∧
    (shutdown (shutdown st0) = shutdown st0 ∧
     (shutdown st0).logOut.count LogEv.sentinel = 1 ∧
     (shutdown (shutdown st0)).logOut.count LogEv.sentinel = 1) :=
  ⟨rfl, rfl, rfl, C3_shutdown_idempotent st0 rfl rfl rfl⟩

/-! ## Session cleanup -/

theorem foldl_sendStep_count_desconectado (fails : Sock → Bool) (m : Bytes)
    (sdr : Option Sock) (l : List Sock) (st : PeerSt) (a : Addr) :
    ((l.foldl (sendStep fails m sdr) st).console).count (Notif.desconectado a) =
      st.console.count (Notif.desconectado a) := by
  induction l generalizing st with
  | nil => rfl
  | cons x l ih =>
    rw [List.foldl_cons, ih, sendStep_console]
    by_cases h1 : sdr = some x <;> by_cases h2 : fails x <;>
      simp [h1, h2, List.count_append, List.count_cons]

theorem broadcast_count_desconectado (fails : Sock → Bool) (st : PeerSt) (m : Bytes)
    (sdr : Option Sock) (a : Addr) :
    ((broadcast fails st m sdr).console).count (Notif.desconectado a) =
      st.console.count (Notif.desconectado a) := by
  unfold broadcast
  rw [foldl_sendStep_count_desconectado]

theorem handleRecv_count_desconectado (fails : Sock → Bool) (cs : Sock) (st : PeerSt)
    (ev : RecvEvent) (a : Addr) :
    ((handleRecv fails cs st ev).1.console).count (Notif.desconectado a) =
      st.console.count (Notif.desconectado a) := by
  cases ev with
  | reset => rfl
  | oserror => rfl
  | data b =>
    by_cases hne : b.isEmptyBytes
    · simp [handleRecv, hne]
    · rcases hp : parseEnvelope b with _ | pr
      · simp [handleRecv, hne, hp]
      · obtain ⟨r, c⟩ := pr
        simp [handleRecv, hne, hp, broadcast_count_desconectado, printCli,
          logEvent_console, List.count_append, List.count_cons]

theorem clientLoop_count_desconectado (fails : Sock → Bool) (cs : Sock)
    (script : List RecvEvent) :
    ∀ (st : PeerSt) (a : Addr),
      ((clientLoop fails cs st script).console).count (Notif.desconectado a) =
        st.console.count (Notif.desconectado a) := by
  induction script with
  | nil => intro st a; rfl
  | cons ev rest ih =>
    intro st a
    simp only [clientLoop]
    split
    · rfl
    · by_cases hr : (handleRecv fails cs st ev).2 <;>
        simp [hr, ih, handleRecv_count_desconectado]

theorem clientCleanup_peers (cs : Sock) (addr : Addr) (st : PeerSt) :
    (clientCleanup cs addr st).peers = removeKey st.peers cs := by
  unfold clientCleanup
  simp [logEvent_peers, printCli]

theorem clientCleanup_closed (cs : Sock) (addr : Addr) (st : PeerSt) :
    (clientCleanup cs addr st).closed = closeSock st.closed cs := by
  unfold clientCleanup
  simp [logEvent_closed, printCli]

theorem clientCleanup_count (cs : Sock) (addr : Addr) (st : PeerSt) :
    ((clientCleanup cs addr st).console).count (Notif.desconectado addr) =
      st.console.count (Notif.desconectado addr) + 1 := by
  unfold clientCleanup
  simp [logEvent_console, printCli, List.count_append, List.count_cons]

/-- C4: for every session and every exit path of the receive loop — any
script of receive outcomes, including an orderly close, a socket error, a
shutdown-triggered exit or any mix — the cleanup runs exactly once: the
connection ends up unregistered, its socket closed, and exactly one
disconnection notification for its address is added to the console. -/
theorem C4_cleanup_once (fails : Sock → Bool) (cs : Sock) (addr : Addr) (st : PeerSt)
    (script : List RecvEvent) :
    cs ∉ peerKeys (handleClient fails cs addr st script).peers ∧
    cs ∈ (handleClient fails cs addr st script).closed ∧
    ((handleClient fails cs addr st script).console).count (Notif.desconectado addr) =
      st.console.count (Notif.desconectado addr) + 1 := by
  unfold handleClient
  refine ⟨?_, ?_, ?_⟩
  · rw [clientCleanup_peers]
    exact not_mem_peerKeys_removeKey _ _
  · rw [clientCleanup_closed]
    exact mem_closeSock_self _ _
  · rw [clientCleanup_count, clientLoop_count_desconectado]
    simp [logEvent_console, printCli, List.count_append, List.count_cons]

/-! ## Lock discipline -/

theorem heldViolation_append (a : List TEv) :
    ∀ (b : List TEv) (d : Nat),
      heldViolation (a ++ b) d =
        (heldViolation a d || heldViolation b (depthAfter a d)) := by
  induction a with
  | nil => intro b d; simp [heldViolation, depthAfter]
  | cons e r ih =>
    intro b d
    cases e <;> simp [heldViolation, depthAfter, ih, Bool.or_assoc]

theorem heldViolation_broadcastSegment (fails : Sock → Bool) (sdr : Option Sock) (s : Sock) :
    heldViolation (broadcastSegment fails sdr s) 0 = false := by
  unfold broadcastSegment
  split
  · rfl
  · split <;> rfl

theorem depthAfter_broadcastSegment (fails : Sock → Bool) (sdr : Option Sock) (s : Sock) :
    depthAfter (broadcastSegment fails sdr s) 0 = 0 := by
  unfold broadcastSegment
  split
  · rfl
  · split <;> rfl

theorem heldViolation_segments (fails : Sock → Bool) (sdr : Option Sock)
    (socks : List Sock) :
    heldViolation ((socks.map (broadcastSegment fails sdr)).flatten) 0 = false := by
  induction socks with
  | nil => rfl
  | cons s rest ih =>
    rw [List.map_cons, List.flatten_cons, heldViolation_append,
      heldViolation_broadcastSegment, depthAfter_broadcastSegment, ih]
    rfl

/-- C9 counterexample: with a single registered connection (handle 7),
the mass-teardown of `shutdown` performs a network call (the socket
shutdown and close of that connection) while the registry lock is held, so
the claim that no operation — including the shutdown teardown path —
holds the mutex across a network call is false on the code. -/
theorem C9_cex : heldViolation (shutdownTrace [7]) 0 = true := by decide

/-- C9 amended: the broadcast path never holds the registry mutex across a
network call (snapshot under the lock, sends outside it, reacquisition
only for the registry pop on failure); the shutdown mass-teardown path,
however, shuts down and closes every registered socket while holding the
lock, so with any nonempty registry it performs network calls under the
mutex. -/
theorem C9_lock_discipline (fails : Sock → Bool) (sdr : Option Sock) (socks : List Sock) :
    heldViolation (broadcastTrace fails sdr socks) 0 = false ∧
    (socks ≠ [] → heldViolation (shutdownTrace socks) 0 = true) := by
  constructor
  · unfold broadcastTrace
    rw [heldViolation_append]
    have h2 : heldViolation [TEv.acquire, TEv.release] 0 = false := rfl
    have h3 : depthAfter [TEv.acquire, TEv.release] 0 = 0 := rfl
    rw [h2, h3, heldViolation_segments]
    rfl
  · intro hne
    obtain ⟨s, rest, hcons⟩ := List.exists_cons_of_ne_nil hne
    subst hcons
    simp [shutdownTrace, heldViolation, isNetOp]

/-- Witness for C9's amended statement: three registered handles, all
sends failing. -/
theorem C9_witness :
    heldViolation (broadcastTrace (fun _ => true) (some 1) [1, 2, 3]) 0 = false ∧
    heldViolation (shutdownTrace [1, 2, 3]) 0 = true :=
  ⟨(C9_lock_discipline (fun _ => true) (some 1) [1, 2, 3]).1,
   (C9_lock_discipline (fun _ => true) (some 1) [1, 2, 3]).2 (by decide)⟩

end P2P
